import Mathlib

/-!
Verification development for a game-service client (`main.py`).

The file embeds, as executable Lean definitions, the parts of the program
the claims are about:

* the credential hasher (`hmac.new(b"lailai", password.encode(), hashlib.sha256).hexdigest()`),
  implemented as real HMAC-SHA256 over byte lists;
* the login handshake `login` (phase-1 credential login, phase-2 token
  exchange, two housekeeping calls), with the RPC lobby modelled as an
  oracle of response functions and the observable behaviour recorded as a
  trace of RPC calls and log entries;
* the game-record decoding loop of `load_and_process_game_log`, with the
  external protobuf parsers modelled as oracles and the observable
  behaviour recorded as a trace of per-child events plus an optional
  abort (a raised `DecodeError`);
* the record lister `load_game_logs` and the credential handling of `main`.
-/

/-! ## Byte-level SHA-256 and HMAC (hashlib.sha256 / hmac.new) -/

/-- Truncation to a 32-bit word. -/
def w32 (n : Nat) : Nat := n % 4294967296

/-- Right rotation of a 32-bit word (argument assumed `< 2 ^ 32`). -/
def rotr32 (n x : Nat) : Nat := x / 2 ^ n + x % 2 ^ n * 2 ^ (32 - n)

def shaCh (x y z : Nat) : Nat := (x &&& y) ^^^ ((x ^^^ 4294967295) &&& z)

def shaMaj (x y z : Nat) : Nat := (x &&& y) ^^^ (x &&& z) ^^^ (y &&& z)

def bigSigma0 (x : Nat) : Nat := rotr32 2 x ^^^ rotr32 13 x ^^^ rotr32 22 x

def bigSigma1 (x : Nat) : Nat := rotr32 6 x ^^^ rotr32 11 x ^^^ rotr32 25 x

def smallSigma0 (x : Nat) : Nat := rotr32 7 x ^^^ rotr32 18 x ^^^ x / 2 ^ 3

def smallSigma1 (x : Nat) : Nat := rotr32 17 x ^^^ rotr32 19 x ^^^ x / 2 ^ 10

/-- Largest `x` with `x ^ 3 <= n`, found bit by bit from bit `k - 1` down. -/
def icbrtGo (n : Nat) : Nat → Nat → Nat
  | 0, x => x
  | k + 1, x =>
    let y := x + 2 ^ k
    if y ^ 3 ≤ n then icbrtGo n k y else icbrtGo n k x

/-- Integer cube root (for arguments below `2 ^ 120`). -/
def icbrt (n : Nat) : Nat := icbrtGo n 40 0

/-- The first 64 primes, whose roots seed the SHA-256 constants. -/
def sha256Primes : List Nat :=
  [2, 3, 5, 7, 11, 13, 17, 19, 23, 29, 31, 37, 41, 43, 47, 53,
   59, 61, 67, 71, 73, 79, 83, 89, 97, 101, 103, 107, 109, 113, 127, 131,
   137, 139, 149, 151, 157, 163, 167, 173, 179, 181, 191, 193, 197, 199, 211, 223,
   227, 229, 233, 239, 241, 251, 257, 263, 269, 271, 277, 281, 283, 293, 307, 311]

/-- The 64 SHA-256 round constants: the first 32 bits of the fractional
parts of the cube roots of the first 64 primes (FIPS 180-4). -/
def sha256K : List Nat :=
  sha256Primes.map (fun p => icbrt (p * 2 ^ 96) % 2 ^ 32)

/-- The SHA-256 initial hash value: the first 32 bits of the fractional
parts of the square roots of the first 8 primes (FIPS 180-4). -/
def sha256H0 : List Nat :=
  (sha256Primes.take 8).map (fun p => Nat.sqrt (p * 2 ^ 64) % 2 ^ 32)

/-- `k`-byte big-endian encoding of `n`. -/
def beBytes (k n : Nat) : List Nat :=
  (List.range k).map (fun i => n / 2 ^ (8 * (k - 1 - i)) % 256)

/-- SHA-256 padding: append `0x80`, zeros to 56 mod 64, then the 64-bit
bit-length, big-endian. -/
def sha256Pad (msg : List Nat) : List Nat :=
  let L := msg.length
  let zeros := (56 + 64 - (L + 1) % 64) % 64
  msg ++ [0x80] ++ List.replicate zeros 0 ++ beBytes 8 (8 * L)

/-- Message schedule: the 64 32-bit words derived from one 64-byte block. -/
def sha256Schedule (block : List Nat) : List Nat :=
  let w0 := (List.range 16).map
    (fun i => ((block.drop (4 * i)).take 4).foldl (fun a b => a * 256 + b) 0)
  (List.range 48).foldl
    (fun w _ =>
      w ++ [w32 (smallSigma1 (w.getD (w.length - 2) 0) + w.getD (w.length - 7) 0
            + smallSigma0 (w.getD (w.length - 15) 0) + w.getD (w.length - 16) 0)])
    w0

/-- One SHA-256 compression step over a 64-byte block. -/
def sha256Compress (h : List Nat) (block : List Nat) : List Nat :=
  let ws := sha256Schedule block
  let step := fun (st : List Nat) (kw : Nat × Nat) =>
    match st with
    | [a, b, c, d, e, f, g, hh] =>
      let t1 := w32 (hh + bigSigma1 e + shaCh e f g + kw.1 + kw.2)
      let t2 := w32 (bigSigma0 a + shaMaj a b c)
      [w32 (t1 + t2), a, b, c, w32 (d + t1), e, f, g]
    | st => st
  let fin := ((sha256K.zip ws).foldl step h)
  (h.zip fin).map (fun p => w32 (p.1 + p.2))

/-- SHA-256 of a byte list (each entry one byte). -/
def sha256 (msg : List Nat) : List Nat :=
  let padded := sha256Pad msg
  let blocks := (List.range (padded.length / 64)).map
    (fun i => (padded.drop (64 * i)).take 64)
  (blocks.foldl sha256Compress sha256H0).foldr (fun x acc => beBytes 4 x ++ acc) []

/-- HMAC-SHA256 (`hmac.new(key, msg, hashlib.sha256)`), block size 64. -/
def hmacSha256 (key msg : List Nat) : List Nat :=
  let keyH := if 64 < key.length then sha256 key else key
  let kpad := keyH ++ List.replicate (64 - keyH.length) 0
  let opad := kpad.map (fun b => b ^^^ 0x5c)
  let ipad := kpad.map (fun b => b ^^^ 0x36)
  sha256 (opad ++ sha256 (ipad ++ msg))

/-- One lowercase hex digit. -/
def hexDigit (n : Nat) : Char :=
  if n < 10 then Char.ofNat (48 + n) else Char.ofNat (87 + n)

/-- Lowercase hex encoding of a byte list (`.hexdigest()`). -/
def hexdigest (bytes : List Nat) : String :=
  String.mk (bytes.foldr (fun b acc => hexDigit (b / 16) :: hexDigit (b % 16) :: acc) [])

/-- UTF-8 bytes of a string (`str.encode()`). -/
def strBytes (s : String) : List Nat := s.toUTF8.toList.map (fun b => b.toNat)

/-- The credential hasher of `main.py` line 82:
`hmac.new(b"lailai", password.encode(), hashlib.sha256).hexdigest()`. -/
def hashCredential (password : String) : String :=
  hexdigest (hmacSha256 (strBytes "lailai") (strBytes password))

/-- The hasher as the spec words it: the hex-encoded HMAC-SHA256 of the
secret under the fixed hard-coded key `"lailai"`. -/
def specCredentialHash (secret : String) : String :=
  hexdigest (hmacSha256 (strBytes "lailai") (strBytes secret))

/-! ## Envelope decoding loop (`load_and_process_game_log`, lines 150-182)

Raw protobuf byte strings are an opaque type `B`; the external
`ParseFromString` calls are oracles.  A successful wrapper parse yields a
`Wrapper` (`name`, `data`); a typed parse either succeeds or raises
`DecodeError`, modelled as `Except Unit`.  The observable behaviour of the
loop is a trace of events: one `parsedChild` per iteration reached, and one
`visited` per `print_data_as_json` call, plus an optional abort marker (the
uncaught `DecodeError`), since in the source an exception thrown midway
leaves the earlier log output in place but stops the loop. -/

/-- The wrapper envelope: `pb.Wrapper` with fields `name` and `data`. -/
structure Wrapper (B : Type) where
  name : String
  data : B
  deriving DecidableEq

/-- The three per-type `is_show_*` booleans of lines 154-156. -/
structure Flags where
  is_show_new_round_record : Bool
  is_show_discard_tile : Bool
  is_show_deal_tile : Bool
  deriving DecidableEq

/-- Oracles for the external protobuf parses used by the loop. -/
structure ParseOracles (B : Type) where
  parseWrapper : B → Except Unit (Wrapper B)
  parseNewRound : B → Except Unit Unit
  parseDiscardTile : B → Except Unit Unit
  parseDealTile : B → Except Unit Unit

/-- Observable events of the decoding loop: `parsedChild i name` each time
child `i`'s bytes are parsed into the wrapper, `visited name payload i`
each time a typed record (parsed from `payload`) is printed. -/
inductive Event (B : Type) where
  | parsedChild (i : Nat) (name : String)
  | visited (name : String) (payload : B) (i : Nat)
  deriving DecidableEq

def nameNewRound : String := ".lq.RecordNewRound"

def nameDiscardTile : String := ".lq.RecordDiscardTile"

def nameDealTile : String := ".lq.RecordDealTile"

/-- One `if round_record_wrapper.name == target and not flag:` block
(lines 161-166, 168-173, 175-180).  An earlier abort passes through, as an
uncaught exception would. -/
def showOnce {B : Type} (target : String) (parseTyped : B → Except Unit Unit)
    (getF : Flags → Bool) (setF : Flags → Flags) (w : Wrapper B) (i : Nat) :
    Flags × List (Event B) × Option Unit → Flags × List (Event B) × Option Unit
  | (g, ev, some e) => (g, ev, some e)
  | (g, ev, none) =>
    if w.name == target && !(getF g) then
      match parseTyped w.data with
      | Except.error e => (g, ev, some e)
      | Except.ok _ => (setF g, ev ++ [Event.visited w.name w.data i], none)
    else (g, ev, none)

/-- The three show-once blocks (lines 161-180) run in order on the parsed
wrapper `w` for child `i`. -/
def processChildParsed {B : Type} (po : ParseOracles B) (f : Flags) (i : Nat) (w : Wrapper B) :
    Flags × List (Event B) × Option Unit :=
  showOnce nameDealTile po.parseDealTile Flags.is_show_deal_tile
    (fun g => { g with is_show_deal_tile := true }) w i
    (showOnce nameDiscardTile po.parseDiscardTile Flags.is_show_discard_tile
      (fun g => { g with is_show_discard_tile := true }) w i
      (showOnce nameNewRound po.parseNewRound Flags.is_show_new_round_record
        (fun g => { g with is_show_new_round_record := true }) w i
        (f, [Event.parsedChild i w.name], none)))

/-- One iteration of the loop body for child `i` with bytes `b`: parse the
wrapper (line 159), then run the three show-once blocks in order. -/
def processChild {B : Type} (po : ParseOracles B) (f : Flags) (i : Nat) (b : B) :
    Flags × List (Event B) × Option Unit :=
  match po.parseWrapper b with
  | Except.error e => (f, [], some e)
  | Except.ok w => processChildParsed po f i w

/-- The `for i in range(0, game_records_count)` loop (lines 158-180): an
abort at one child stops the loop with the events emitted so far. -/
def processLoop {B : Type} (po : ParseOracles B) (f : Flags) (i : Nat) :
    List B → Flags × List (Event B) × Option Unit
  | [] => (f, [], none)
  | b :: rest =>
    match processChild po f i b with
    | (f1, ev1, some e) => (f1, ev1, some e)
    | (f1, ev1, none) =>
      let out := processLoop po f1 (i + 1) rest
      (out.1, ev1 ++ out.2.1, out.2.2)

/-- The initial flag state of lines 154-156: nothing shown yet. -/
def initFlags : Flags :=
  { is_show_new_round_record := false, is_show_discard_tile := false,
    is_show_deal_tile := false }

/-- The whole per-record decoding pass over the container's children, with
all three flags initially false (lines 153-180): the trace of events and
whether a `DecodeError` aborted the loop. -/
def processGameRecords {B : Type} (po : ParseOracles B) (game_records : List B) :
    List (Event B) × Option Unit :=
  let out := processLoop po initFlags 0 game_records
  (out.2.1, out.2.2)

/-- The loop as written: one `Wrapper` message allocated before the loop
(line 153) and re-parsed into at every iteration, each parse fully
replacing the previous contents; the wrapper is loop-carried state. -/
def processLoopReused {B : Type} (po : ParseOracles B) (wrec : Wrapper B) (f : Flags) (i : Nat) :
    List B → Flags × Wrapper B × List (Event B) × Option Unit
  | [] => (f, wrec, [], none)
  | b :: rest =>
    match po.parseWrapper b with
    | Except.error e => (f, wrec, [], some e)
    | Except.ok w =>
      match processChildParsed po f i w with
      | (f1, ev1, some e) => (f1, w, ev1, some e)
      | (f1, ev1, none) =>
        let out := processLoopReused po w f1 (i + 1) rest
        (out.1, out.2.1, ev1 ++ out.2.2.1, out.2.2.2)

/-- The pass over the container's children as the source writes it, with
the single reused wrapper message `w0` allocated before the loop. -/
def processGameRecordsReused {B : Type} (po : ParseOracles B) (w0 : Wrapper B)
    (game_records : List B) : List (Event B) × Option Unit :=
  let out := processLoopReused po w0 initFlags 0 game_records
  (out.2.2.1, out.2.2.2)

/-- `true` when visits of type name `T` are suppressed from flag state `f`:
its show-once flag is set, or `T` is not one of the three handled names. -/
def flagOf (T : String) (f : Flags) : Bool :=
  if T = nameNewRound then f.is_show_new_round_record
  else if T = nameDiscardTile then f.is_show_discard_tile
  else if T = nameDealTile then f.is_show_deal_tile
  else true

/-- Set the show-once flag of name `T` (identity for unhandled names). -/
def setFlag (T : String) (f : Flags) : Flags :=
  if T = nameNewRound then { f with is_show_new_round_record := true }
  else if T = nameDiscardTile then { f with is_show_discard_tile := true }
  else if T = nameDealTile then { f with is_show_deal_tile := true }
  else f

/-- The indices of the children a trace records as parsed, in trace order. -/
def childIndices {B : Type} (tr : List (Event B)) : List Nat :=
  tr.filterMap (fun e => match e with
    | Event.parsedChild j _ => some j
    | Event.visited _ _ _ => none)

/-- How many visits of type name `T` a trace contains. -/
def countVisits {B : Type} (T : String) (tr : List (Event B)) : Nat :=
  (tr.filter (fun e => match e with
    | Event.visited N _ _ => N == T
    | Event.parsedChild _ _ => false)).length

/-! ## Session handshake (`login`, lines 75-118)

The lobby RPC stub is an oracle of total response functions: the underlying
channel parses and returns the response message of each call, and a
server-side failure shows up as an error code inside the response message,
not as a control-flow exception.  The observable behaviour of `login` is
its boolean result, the list of RPC calls it issued, in order, and the
entries it logged. -/

/-- `req.device` / `reqOauth2Login.device`: only `is_browser` is set. -/
structure ClientDevice where
  is_browser : Bool
  deriving DecidableEq

/-- `pb.ReqLogin` as populated by lines 80-87. -/
structure ReqLogin where
  account : String
  password : String
  device : ClientDevice
  random_key : String
  gen_access_token : Bool
  client_version_string : String
  currency_platforms : List Nat
  deriving DecidableEq

/-- `pb.ResLogin`, reduced to the fields `login` observes: the access token
and an error code standing for the rest of the raw server response. -/
structure ResLogin where
  access_token : String
  error_code : Option Nat
  deriving DecidableEq

/-- `pb.ReqOauth2Login` as populated by lines 96-106. -/
structure ReqOauth2Login where
  type : Nat
  access_token : String
  reconnect : Bool
  device : ClientDevice
  random_key : String
  client_version_string : String
  gen_access_token : Bool
  currency_platforms : List Nat
  deriving DecidableEq

/-- `pb.ResOauth2Login`, reduced to an error code. -/
structure ResOauth2Login where
  error_code : Option Nat
  deriving DecidableEq

/-- `pb.ReqCommon`: an empty message. -/
structure ReqCommon where
  deriving DecidableEq

/-- `pb.ResCommon`: an optional error code; `error_code = some n` models a
response reporting a server-side failure of the call. -/
structure ResCommon where
  error_code : Option Nat
  deriving DecidableEq

/-- The lobby stub as an oracle: one response function per RPC method used
by `login`. -/
structure LobbyOracle where
  login : ReqLogin → ResLogin
  oauth2_login : ReqOauth2Login → ResOauth2Login
  pay_month_ticket : ReqCommon → ResCommon
  fetch_month_ticket_info : ReqCommon → ResCommon

/-- One outbound RPC call with its request message. -/
inductive RpcCall where
  | loginCall (req : ReqLogin)
  | oauth2LoginCall (req : ReqOauth2Login)
  | payMonthTicketCall (req : ReqCommon)
  | fetchMonthTicketInfoCall (req : ReqCommon)
  deriving DecidableEq

/-- One log entry `login` emits. -/
inductive LogEntry where
  | info (msg : String)
  | errorMsg (msg : String)
  | errorLoginRes (res : ResLogin)
  | infoPayMonthTicket (res : ResCommon)
  | infoFetchMonthTicketInfo (res : ResCommon)
  deriving DecidableEq

/-- The phase-1 request of lines 80-87; `hashed_password` is
`hashCredential` of the plaintext, `uuid_key` the fresh correlation key. -/
def mkReqLogin (username hashed_password version_to_force uuid_key : String) : ReqLogin :=
  { account := username
    password := hashed_password
    device := { is_browser := true }
    random_key := uuid_key
    gen_access_token := true
    client_version_string := "web-" ++ version_to_force
    currency_platforms := [2] }

/-- The phase-2 request of lines 96-106. -/
def mkReqOauth2Login (token version_to_force uuid_key : String) : ReqOauth2Login :=
  { type := 7
    access_token := token
    reconnect := false
    device := { is_browser := true }
    random_key := uuid_key
    client_version_string := "web-" ++ version_to_force
    gen_access_token := false
    currency_platforms := [2] }

/-- The `login` coroutine (lines 75-118): returns its boolean result, the
RPC calls issued in order, and the log entries emitted in order.
`uuid_key1` and `uuid_key2` are the two freshly generated UUIDs. -/
def login (lobby : LobbyOracle) (username password version_to_force uuid_key1 uuid_key2 : String) :
    Bool × List RpcCall × List LogEntry :=
  let req := mkReqLogin username (hashCredential password) version_to_force uuid_key1
  let res := lobby.login req
  let token := res.access_token
  if token = "" then
    (false,
     [RpcCall.loginCall req],
     [LogEntry.info "Login with username and password",
      LogEntry.errorMsg "Login Error:",
      LogEntry.errorLoginRes res])
  else
    let reqOauth2Login := mkReqOauth2Login token version_to_force uuid_key2
    let _resOauth2Login := lobby.oauth2_login reqOauth2Login
    let reqPayMonthTicket : ReqCommon := {}
    let resPayMonthTicket := lobby.pay_month_ticket reqPayMonthTicket
    let reqFetchMonthTicketInfo : ReqCommon := {}
    let resFetchMonthTicketInfo := lobby.fetch_month_ticket_info reqFetchMonthTicketInfo
    (true,
     [RpcCall.loginCall req,
      RpcCall.oauth2LoginCall reqOauth2Login,
      RpcCall.payMonthTicketCall reqPayMonthTicket,
      RpcCall.fetchMonthTicketInfoCall reqFetchMonthTicketInfo],
     [LogEntry.info "Login with username and password",
      LogEntry.infoPayMonthTicket resPayMonthTicket,
      LogEntry.infoFetchMonthTicketInfo resFetchMonthTicketInfo])

/-! ## Record lister (`load_game_logs`, lines 121-133) -/

/-- `pb.ReqGameRecordList` as populated by lines 127-129. -/
structure ReqGameRecordList where
  start : Nat
  count : Nat
  deriving DecidableEq

/-- One entry of the server's `record_list`, reduced to the field the
lister reads. -/
structure RecordGame where
  uuid : String
  deriving DecidableEq

/-- `pb.ResGameRecordList`, reduced to `record_list`. -/
structure ResGameRecordList where
  record_list : List RecordGame
  deriving DecidableEq

/-- `load_game_logs` (lines 121-133): returns the collected uuids and the
list of `fetch_game_record_list` requests issued, in order. -/
def load_game_logs (fetch_game_record_list : ReqGameRecordList → ResGameRecordList) :
    List String × List ReqGameRecordList :=
  let current := 1
  let step := 30
  let req : ReqGameRecordList := { start := current, count := step }
  let res := fetch_game_record_list req
  let records := res.record_list.map (fun r => r.uuid)
  (records, [req])

/-! ## Credential loading in `main` (lines 24-39) -/

/-- The observable actions of `main`, in order. -/
inductive MainAction where
  | logInfo (msg : String)
  | connect
  | loginWith (username password : String)
  | closeChannel
  deriving DecidableEq

/-- `os.getenv(name, default)`. -/
def getenv (env : String → Option String) (name default : String) : String :=
  (env name).getD default

/-- `main` (lines 24-39) over an environment `env`: resolve the
credentials with non-empty defaults, return early on an empty credential,
otherwise connect, log in and close the channel. -/
def mainActions (env : String → Option String) : List MainAction :=
  let username := getenv env "USERNAME" "default_username"
  let password := getenv env "PASSWORD" "default_password"
  if username = "" ∨ password = "" then
    [MainAction.logInfo "Username or password cant be empty"]
  else
    [MainAction.connect, MainAction.loginWith username password, MainAction.closeChannel]


/-! ## Concrete fixtures used to exercise the definitions -/

/-- Parse oracles over `B := Nat`: byte string `0` is a well-formed
new-round child, `1` a well-formed discard child, anything else a child of
an unregistered type; all typed payloads well-formed. -/
def samplePO : ParseOracles Nat :=
  { parseWrapper := fun b =>
      if b = 0 then Except.ok { name := nameNewRound, data := 10 }
      else if b = 1 then Except.ok { name := nameDiscardTile, data := 11 }
      else Except.ok { name := ".lq.UnknownRecord", data := 13 }
    parseNewRound := fun _ => Except.ok ()
    parseDiscardTile := fun _ => Except.ok ()
    parseDealTile := fun _ => Except.ok () }

/-- Like `samplePO`, but every new-round payload is malformed: its typed
parse raises `DecodeError`. -/
def samplePOBad : ParseOracles Nat :=
  { samplePO with parseNewRound := fun _ => Except.error () }

/-- A lobby that rejects phase 1: empty access token, error code set. -/
def lobbyReject : LobbyOracle :=
  { login := fun _ => { access_token := "", error_code := some 151 }
    oauth2_login := fun _ => { error_code := none }
    pay_month_ticket := fun _ => { error_code := some 1151 }
    fetch_month_ticket_info := fun _ => { error_code := some 1151 } }

/-- A lobby that accepts phases 1 and 2 but fails both housekeeping calls
with an in-response error code. -/
def lobbyAccept : LobbyOracle :=
  { login := fun _ => { access_token := "tok", error_code := none }
    oauth2_login := fun _ => { error_code := none }
    pay_month_ticket := fun _ => { error_code := some 1151 }
    fetch_month_ticket_info := fun _ => { error_code := some 1151 } }

/-- An environment with neither credential variable set. -/
def envUnset : String → Option String := fun _ => none

/-- An environment with `USERNAME` set to the empty string. -/
def envEmptyUsername : String → Option String :=
  fun name => if name = "USERNAME" then some "" else none

/-! ## Helper lemmas about the decoding loop -/

theorem nameNewRound_ne_discard : nameNewRound ≠ nameDiscardTile := by decide

theorem nameNewRound_ne_deal : nameNewRound ≠ nameDealTile := by decide

theorem nameDiscard_ne_deal : nameDiscardTile ≠ nameDealTile := by decide

/-- When `T` is none of the three handled names, its visits are always
suppressed. -/
theorem flagOf_unhandled (T : String) (f : Flags)
    (h1 : T ≠ nameNewRound) (h2 : T ≠ nameDiscardTile) (h3 : T ≠ nameDealTile) :
    flagOf T f = true := by
  simp [flagOf, h1, h2, h3]

/-- A name whose flag can be false is one of the three handled names. -/
theorem flagOf_false_name (T : String) (f : Flags) (h : flagOf T f = false) :
    T = nameNewRound ∨ T = nameDiscardTile ∨ T = nameDealTile := by
  by_cases h1 : T = nameNewRound
  · exact Or.inl h1
  by_cases h2 : T = nameDiscardTile
  · exact Or.inr (Or.inl h2)
  by_cases h3 : T = nameDealTile
  · exact Or.inr (Or.inr h3)
  · rw [flagOf_unhandled T f h1 h2 h3] at h
    cases h

/-- Setting the flag of `T` suppresses `T`. -/
theorem flagOf_setFlag_self (T : String) (f : Flags) (h : flagOf T f = false) :
    flagOf T (setFlag T f) = true := by
  rcases flagOf_false_name T f h with h1 | h2 | h3
  · subst h1; simp [flagOf, setFlag]
  · subst h2; simp [flagOf, setFlag, Ne.symm nameNewRound_ne_discard]
  · subst h3; simp [flagOf, setFlag, Ne.symm nameNewRound_ne_deal, Ne.symm nameDiscard_ne_deal]

/-- Setting the flag of another name leaves `T`'s suppression unchanged. -/
theorem flagOf_setFlag_other (T N : String) (f : Flags) (h : T ≠ N) :
    flagOf T (setFlag N f) = flagOf T f := by
  have d12 := nameNewRound_ne_discard
  have d13 := nameNewRound_ne_deal
  have d23 := nameDiscard_ne_deal
  have d21 : nameDiscardTile ≠ nameNewRound := Ne.symm d12
  have d31 : nameDealTile ≠ nameNewRound := Ne.symm d13
  have d32 : nameDealTile ≠ nameDiscardTile := Ne.symm d23
  by_cases h1 : T = nameNewRound <;> by_cases h2 : T = nameDiscardTile <;>
    by_cases h3 : T = nameDealTile <;>
    by_cases hn1 : N = nameNewRound <;> by_cases hn2 : N = nameDiscardTile <;>
    by_cases hn3 : N = nameDealTile <;>
    simp_all [flagOf, setFlag]

/-- Setting any flag never unsuppresses a name. -/
theorem flagOf_setFlag_mono (T N : String) (f : Flags) (h : flagOf T f = true) :
    flagOf T (setFlag N f) = true := by
  by_cases hTN : T = N
  · subst hTN
    have d21 : nameDiscardTile ≠ nameNewRound := Ne.symm nameNewRound_ne_discard
    have d31 : nameDealTile ≠ nameNewRound := Ne.symm nameNewRound_ne_deal
    have d32 : nameDealTile ≠ nameDiscardTile := Ne.symm nameDiscard_ne_deal
    by_cases h1 : T = nameNewRound <;> by_cases h2 : T = nameDiscardTile <;>
      by_cases h3 : T = nameDealTile <;> simp_all [flagOf, setFlag]
  · rw [flagOf_setFlag_other T N f hTN]; exact h

theorem childIndices_append {B : Type} (t1 t2 : List (Event B)) :
    childIndices (t1 ++ t2) = childIndices t1 ++ childIndices t2 := by
  simp [childIndices, List.filterMap_append]

theorem countVisits_append {B : Type} (T : String) (t1 t2 : List (Event B)) :
    countVisits T (t1 ++ t2) = countVisits T t1 + countVisits T t2 := by
  simp [countVisits, List.filter_append]

theorem countVisits_eq_zero {B : Type} (T : String) (tr : List (Event B))
    (h : ∀ p j, Event.visited T p j ∉ tr) : countVisits T tr = 0 := by
  induction tr with
  | nil => rfl
  | cons e rest ih =>
    have hrest : ∀ p j, Event.visited T p j ∉ rest := fun p j hm =>
      h p j (List.mem_cons_of_mem e hm)
    cases e with
    | parsedChild i N => simpa [countVisits, List.filter_cons] using ih hrest
    | visited N p i =>
      have hNT : (N == T) = false := by
        rcases hb : N == T with _ | _
        · rfl
        · exact absurd (by rw [eq_of_beq hb]; exact List.mem_cons_self _ _) (h p i)
      simpa [countVisits, List.filter_cons, hNT] using ih hrest

/-- Full case analysis of one loop body run on an already parsed wrapper:
either the child's name is suppressed (flag already set or name unhandled)
and nothing but the parse event happens; or its typed parse fails and the
loop body aborts; or it is visited once and its flag becomes set. -/
theorem processChildParsed_spec {B : Type} (po : ParseOracles B) (f : Flags) (i : Nat)
    (w : Wrapper B) :
    (flagOf w.name f = true ∧
      processChildParsed po f i w = (f, [Event.parsedChild i w.name], none)) ∨
    (flagOf w.name f = false ∧ ∃ e,
      processChildParsed po f i w = (f, [Event.parsedChild i w.name], some e)) ∨
    (flagOf w.name f = false ∧
      processChildParsed po f i w =
        (setFlag w.name f,
         [Event.parsedChild i w.name, Event.visited w.name w.data i], none)) := by
  have b12 : (nameNewRound == nameDiscardTile) = false := by decide
  have b13 : (nameNewRound == nameDealTile) = false := by decide
  have b23 : (nameDiscardTile == nameDealTile) = false := by decide
  have b21 : (nameDiscardTile == nameNewRound) = false := by decide
  have b31 : (nameDealTile == nameNewRound) = false := by decide
  have b32 : (nameDealTile == nameDiscardTile) = false := by decide
  have d21 : nameDiscardTile ≠ nameNewRound := Ne.symm nameNewRound_ne_discard
  have d31 : nameDealTile ≠ nameNewRound := Ne.symm nameNewRound_ne_deal
  have d32 : nameDealTile ≠ nameDiscardTile := Ne.symm nameDiscard_ne_deal
  by_cases h1 : w.name = nameNewRound
  · by_cases hf : f.is_show_new_round_record
    · left
      refine ⟨by simp [flagOf, h1, hf], ?_⟩
      simp [processChildParsed, showOnce, h1, hf, b12, b13]
    · cases hp : po.parseNewRound w.data with
      | error e =>
        right; left
        refine ⟨by simp [flagOf, h1, hf], e, ?_⟩
        simp [processChildParsed, showOnce, h1, hf, hp]
      | ok u =>
        right; right
        refine ⟨by simp [flagOf, h1, hf], ?_⟩
        simp [processChildParsed, showOnce, setFlag, h1, hf, hp, b12, b13]
  · by_cases h2 : w.name = nameDiscardTile
    · by_cases hf : f.is_show_discard_tile
      · left
        refine ⟨by simp [flagOf, h2, hf, d21], ?_⟩
        simp [processChildParsed, showOnce, h2, hf, b21, b23]
      · cases hp : po.parseDiscardTile w.data with
        | error e =>
          right; left
          refine ⟨by simp [flagOf, h2, hf, d21], e, ?_⟩
          simp [processChildParsed, showOnce, h2, hf, hp, b21, b23]
        | ok u =>
          right; right
          refine ⟨by simp [flagOf, h2, hf, d21], ?_⟩
          simp [processChildParsed, showOnce, setFlag, h2, hf, hp, b21, b23, d21]
    · by_cases h3 : w.name = nameDealTile
      · by_cases hf : f.is_show_deal_tile
        · left
          refine ⟨by simp [flagOf, h3, hf, d31, d32], ?_⟩
          simp [processChildParsed, showOnce, h3, hf, b31, b32]
        · cases hp : po.parseDealTile w.data with
          | error e =>
            right; left
            refine ⟨by simp [flagOf, h3, hf, d31, d32], e, ?_⟩
            simp [processChildParsed, showOnce, h3, hf, hp, b31, b32]
          | ok u =>
            right; right
            refine ⟨by simp [flagOf, h3, hf, d31, d32], ?_⟩
            simp [processChildParsed, showOnce, setFlag, h3, hf, hp, b31, b32, d31, d32]
      · left
        refine ⟨flagOf_unhandled w.name f h1 h2 h3, ?_⟩
        have e1 : (w.name == nameNewRound) = false := by
          simpa using h1
        have e2 : (w.name == nameDiscardTile) = false := by
          simpa using h2
        have e3 : (w.name == nameDealTile) = false := by
          simpa using h3
        simp [processChildParsed, showOnce, e1, e2, e3]

theorem countVisits_nil {B : Type} (T : String) : countVisits T ([] : List (Event B)) = 0 := rfl

theorem countVisits_cons_pc {B : Type} (T N : String) (i : Nat) (tr : List (Event B)) :
    countVisits T (Event.parsedChild i N :: tr) = countVisits T tr := by
  simp [countVisits, List.filter_cons]

theorem countVisits_cons_vis_eq {B : Type} (T : String) (p : B) (i : Nat)
    (tr : List (Event B)) :
    countVisits T (Event.visited T p i :: tr) = countVisits T tr + 1 := by
  simp [countVisits, List.filter_cons]

theorem countVisits_cons_vis_ne {B : Type} (T N : String) (p : B) (i : Nat)
    (tr : List (Event B)) (h : N ≠ T) :
    countVisits T (Event.visited N p i :: tr) = countVisits T tr := by
  simp [countVisits, List.filter_cons, h]

/-- If a name is already suppressed, no later flag set can unsuppress it. -/
theorem flagOf_of_setFlag_false (T N : String) (f : Flags)
    (h : flagOf T (setFlag N f) = false) : flagOf T f = false := by
  cases hf : flagOf T f with
  | false => rfl
  | true => rw [flagOf_setFlag_mono T N f hf] at h; cases h

/-- One loop iteration either fails the wrapper parse and aborts, or runs
the three show-once blocks on the parsed wrapper. -/
theorem processChild_spec {B : Type} (po : ParseOracles B) (f : Flags) (i : Nat) (b : B) :
    (∃ e, po.parseWrapper b = Except.error e ∧ processChild po f i b = (f, [], some e)) ∨
    (∃ w, po.parseWrapper b = Except.ok w ∧
      processChild po f i b = processChildParsed po f i w) := by
  cases hw : po.parseWrapper b with
  | error e => exact Or.inl ⟨e, rfl, by simp [processChild, hw]⟩
  | ok w => exact Or.inr ⟨w, rfl, by simp [processChild, hw]⟩

/-- Master invariant of the decoding loop, for any starting flag state and
index: (1) an abort-free run parses exactly the children `i, i+1, ...` in
order; (2) all parse events are at indices `≥ i`; (3) a visited name was
unsuppressed at loop entry; (4) each name is visited at most once; (5) a
visit happens at the first child of that name seen by the loop. -/
theorem processLoop_spec {B : Type} (po : ParseOracles B) :
    ∀ (bs : List B) (f : Flags) (i : Nat),
      ((processLoop po f i bs).2.2 = none →
        childIndices (processLoop po f i bs).2.1 = List.range' i bs.length) ∧
      (∀ N k, Event.parsedChild k N ∈ (processLoop po f i bs).2.1 → i ≤ k) ∧
      (∀ T p j, Event.visited T p j ∈ (processLoop po f i bs).2.1 → flagOf T f = false) ∧
      (∀ T, countVisits T (processLoop po f i bs).2.1 ≤ 1) ∧
      (∀ T p j, Event.visited T p j ∈ (processLoop po f i bs).2.1 →
        Event.parsedChild j T ∈ (processLoop po f i bs).2.1 ∧
        ∀ k, Event.parsedChild k T ∈ (processLoop po f i bs).2.1 → j ≤ k) := by
  intro bs
  induction bs with
  | nil =>
    intro f i
    refine ⟨fun _ => rfl, ?_, ?_, ?_, ?_⟩ <;> simp [processLoop, countVisits]
  | cons b rest ih =>
    intro f i
    rcases processChild_spec po f i b with ⟨e, _, hpc⟩ | ⟨w, _, hpcw⟩
    · -- wrapper parse failed: loop aborts with empty trace
      have hl : processLoop po f i (b :: rest) = (f, [], some e) := by
        simp [processLoop, hpc]
      rw [hl]
      refine ⟨?_, ?_, ?_, ?_, ?_⟩ <;> simp [countVisits]
    · rcases processChildParsed_spec po f i w with ⟨hfl, hcp⟩ | ⟨hfl, e, hcp⟩ | ⟨hfl, hcp⟩
      · -- suppressed (flag set or unhandled name): only the parse event
        have hpc : processChild po f i b = (f, [Event.parsedChild i w.name], none) :=
          hpcw.trans hcp
        have hl : processLoop po f i (b :: rest) =
            ((processLoop po f (i + 1) rest).1,
             Event.parsedChild i w.name :: (processLoop po f (i + 1) rest).2.1,
             (processLoop po f (i + 1) rest).2.2) := by
          simp [processLoop, hpc]
        obtain ⟨ih1, ih2, ih3, ih4, ih5⟩ := ih f (i + 1)
        rw [hl]
        refine ⟨?_, ?_, ?_, ?_, ?_⟩
        · intro hr
          have := ih1 hr
          simp only [childIndices, List.filterMap_cons] at *
          rw [List.length_cons, List.range'_succ]
          simpa using this
        · intro N k hk
          rcases List.mem_cons.1 hk with heq | hmem
          · cases heq; exact Nat.le_refl i
          · exact Nat.le_of_succ_le (ih2 N k hmem)
        · intro T p j hv
          rcases List.mem_cons.1 hv with heq | hmem
          · cases heq
          · exact ih3 T p j hmem
        · intro T
          rw [countVisits_cons_pc]
          exact ih4 T
        · intro T p j hv
          rcases List.mem_cons.1 hv with heq | hmem
          · cases heq
          · obtain ⟨hpcj, hmin⟩ := ih5 T p j hmem
            refine ⟨List.mem_cons_of_mem _ hpcj, ?_⟩
            intro k hk
            rcases List.mem_cons.1 hk with heq2 | hmem2
            · obtain ⟨hki, hTw⟩ : k = i ∧ T = w.name := by
                cases heq2; exact ⟨rfl, rfl⟩
              rw [hTw] at hmem
              have := ih3 w.name p j hmem
              rw [this] at hfl
              cases hfl
            · exact hmin k hmem2
      · -- typed parse failed: abort after the parse event
        have hpc : processChild po f i b =
            (f, [Event.parsedChild i w.name], some e) := hpcw.trans hcp
        have hl : processLoop po f i (b :: rest) =
            (f, [Event.parsedChild i w.name], some e) := by
          simp [processLoop, hpc]
        rw [hl]
        refine ⟨?_, ?_, ?_, ?_, ?_⟩
        · intro hr; cases hr
        · intro N k hk
          rcases List.mem_cons.1 hk with heq | hmem
          · cases heq; exact Nat.le_refl i
          · cases hmem
        · intro T p j hv
          rcases List.mem_cons.1 hv with heq | hmem
          · cases heq
          · cases hmem
        · intro T
          rw [countVisits_cons_pc, countVisits_nil]
          exact Nat.zero_le 1
        · intro T p j hv
          rcases List.mem_cons.1 hv with heq | hmem
          · cases heq
          · cases hmem
      · -- visit: parse event, one visit, flag set, loop continues
        have hpc : processChild po f i b =
            (setFlag w.name f,
             [Event.parsedChild i w.name, Event.visited w.name w.data i], none) :=
          hpcw.trans hcp
        have hl : processLoop po f i (b :: rest) =
            ((processLoop po (setFlag w.name f) (i + 1) rest).1,
             Event.parsedChild i w.name :: Event.visited w.name w.data i ::
               (processLoop po (setFlag w.name f) (i + 1) rest).2.1,
             (processLoop po (setFlag w.name f) (i + 1) rest).2.2) := by
          simp [processLoop, hpc]
        obtain ⟨ih1, ih2, ih3, ih4, ih5⟩ := ih (setFlag w.name f) (i + 1)
        rw [hl]
        refine ⟨?_, ?_, ?_, ?_, ?_⟩
        · intro hr
          have := ih1 hr
          simp only [childIndices, List.filterMap_cons] at *
          rw [List.length_cons, List.range'_succ]
          simpa using this
        · intro N k hk
          rcases List.mem_cons.1 hk with heq | hk2
          · cases heq; exact Nat.le_refl i
          rcases List.mem_cons.1 hk2 with heq | hmem
          · cases heq
          · exact Nat.le_of_succ_le (ih2 N k hmem)
        · intro T p j hv
          rcases List.mem_cons.1 hv with heq | hv2
          · cases heq
          rcases List.mem_cons.1 hv2 with heq | hmem
          · cases heq; exact hfl
          · exact flagOf_of_setFlag_false T w.name f (ih3 T p j hmem)
        · intro T
          rw [countVisits_cons_pc]
          by_cases hT : T = w.name
          · rw [hT, countVisits_cons_vis_eq]
            have hzero : countVisits w.name
                (processLoop po (setFlag w.name f) (i + 1) rest).2.1 = 0 := by
              apply countVisits_eq_zero
              intro p j hmem
              have := ih3 w.name p j hmem
              rw [flagOf_setFlag_self w.name f hfl] at this
              cases this
            rw [hzero]
          · rw [countVisits_cons_vis_ne T w.name _ _ _ (fun h => hT h.symm)]
            exact ih4 T
        · intro T p j hv
          rcases List.mem_cons.1 hv with heq | hv2
          · cases heq
          rcases List.mem_cons.1 hv2 with heq | hmem
          · -- the visit of this very child
            obtain ⟨hTw, hpw, hji⟩ : T = w.name ∧ p = w.data ∧ j = i := by
              cases heq; exact ⟨rfl, rfl, rfl⟩
            refine ⟨?_, ?_⟩
            · rw [hTw, hji]; exact List.mem_cons_self _ _
            · intro k hk
              rw [hji]
              rcases List.mem_cons.1 hk with heq2 | hk2
              · cases heq2; exact Nat.le_refl i
              rcases List.mem_cons.1 hk2 with heq2 | hmem2
              · cases heq2
              · exact Nat.le_of_succ_le (ih2 T k hmem2)
          · -- a visit further down: its name differs from this child's
            obtain ⟨hpcj, hmin⟩ := ih5 T p j hmem
            have hTne : T ≠ w.name := by
              intro hTw
              have := ih3 T p j hmem
              rw [hTw, flagOf_setFlag_self w.name f hfl] at this
              cases this
            refine ⟨List.mem_cons_of_mem _ (List.mem_cons_of_mem _ hpcj), ?_⟩
            intro k hk
            rcases List.mem_cons.1 hk with heq2 | hk2
            · obtain ⟨hki, hTw⟩ : k = i ∧ T = w.name := by
                cases heq2; exact ⟨rfl, rfl⟩
              exact absurd hTw hTne
            rcases List.mem_cons.1 hk2 with heq2 | hmem2
            · cases heq2
            · exact hmin k hmem2

/-- The loop with the reused wrapper message computes the same flags,
trace and abort as the plain loop; the extra component is the last parsed
wrapper. -/
theorem processLoopReused_shape {B : Type} (po : ParseOracles B) :
    ∀ (bs : List B) (wrec : Wrapper B) (f : Flags) (i : Nat),
      ∃ wfin, processLoopReused po wrec f i bs =
        ((processLoop po f i bs).1, wfin,
         (processLoop po f i bs).2.1, (processLoop po f i bs).2.2) := by
  intro bs
  induction bs with
  | nil => intro wrec f i; exact ⟨wrec, rfl⟩
  | cons b rest ih =>
    intro wrec f i
    cases hw : po.parseWrapper b with
    | error e =>
      refine ⟨wrec, ?_⟩
      simp [processLoopReused, processLoop, processChild, hw]
    | ok w =>
      rcases hc : processChildParsed po f i w with ⟨f1, ev1, r1⟩
      cases r1 with
      | some e =>
        refine ⟨w, ?_⟩
        simp [processLoopReused, processLoop, processChild, hw, hc]
      | none =>
        obtain ⟨wfin, heq⟩ := ih w f1 (i + 1)
        refine ⟨wfin, ?_⟩
        simp [processLoopReused, processLoop, processChild, hw, hc, heq]

/-! ## The claims -/

/-- C6: the credential hasher is a deterministic pure function: for every
secret string `s`, `hashCredential s` is the hex-encoded HMAC-SHA256 of
`s` under the fixed hard-coded key, and repeated application yields the
same value. -/
theorem credential_hasher_deterministic (s : String) :
    hashCredential s = specCredentialHash s ∧ hashCredential s = hashCredential s :=
  ⟨rfl, rfl⟩

/-- C7: the record lister issues exactly one RPC call, with `start = 1`
and `count = 30`, and returns the identifiers of the server response in
server order; in particular a response with any number of records (ten
included) yields exactly that many identifiers and no failure. -/
theorem record_lister_single_call (fetch : ReqGameRecordList → ResGameRecordList) :
    (load_game_logs fetch).2 = [{ start := 1, count := 30 }] ∧
    (load_game_logs fetch).1 =
      (fetch { start := 1, count := 30 }).record_list.map (fun r => r.uuid) ∧
    (load_game_logs fetch).1.length =
      (fetch { start := 1, count := 30 }).record_list.length := by
  refine ⟨rfl, rfl, ?_⟩
  simp [load_game_logs]

/-- C8: a container with zero children yields zero visitor invocations
and zero errors, and is not a failure. -/
theorem empty_container_zero_visits {B : Type} (po : ParseOracles B) :
    processGameRecords po ([] : List B) = ([], none) := rfl

/-- C9: the loop reusing one mutable wrapper message across iterations is
observationally equivalent to the variant allocating a fresh wrapper per
child: both produce the same event trace and the same abort behaviour,
because each parse fully replaces the previous contents. -/
theorem reused_wrapper_loop_equiv {B : Type} (po : ParseOracles B) (w0 : Wrapper B)
    (records : List B) :
    processGameRecordsReused po w0 records = processGameRecords po records := by
  obtain ⟨wfin, heq⟩ := processLoopReused_shape po records w0 initFlags 0
  simp [processGameRecordsReused, processGameRecords, heq]

/-- C3 fails on the code: with child 0 a new-round child whose payload is
malformed and child 1 a well-formed discard child, the decode aborts at
child 0 with an uncaught `DecodeError`; no per-child error is handed to
the caller and child 1 is never processed, although the same container
decodes in full when child 0's payload is well-formed. -/
theorem malformed_child_aborts_cex :
    processGameRecords samplePOBad [0, 1] =
      ([Event.parsedChild 0 nameNewRound], some ()) ∧
    Event.parsedChild 1 nameDiscardTile ∉ (processGameRecords samplePOBad [0, 1]).1 ∧
    processGameRecords samplePO [0, 1] =
      ([Event.parsedChild 0 nameNewRound, Event.visited nameNewRound 10 0,
        Event.parsedChild 1 nameDiscardTile, Event.visited nameDiscardTile 11 1],
       none) :=
  ⟨rfl, by decide, rfl⟩

/-- C3 (amended): a child whose payload is malformed for its declared type
aborts the whole decode: the `DecodeError` escapes to the caller, and the
children after it are not processed. -/
theorem malformed_child_aborts {B : Type} (po : ParseOracles B) (f : Flags) (i : Nat)
    (b : B) (rest : List B) (f1 : Flags) (ev : List (Event B)) (e : Unit)
    (h : processChild po f i b = (f1, ev, some e)) :
    processLoop po f i (b :: rest) = (f1, ev, some e) := by
  simp [processLoop, h]

theorem malformed_child_aborts_witness :
    processLoop samplePOBad initFlags 0 [0, 1] =
      (initFlags, [Event.parsedChild 0 nameNewRound], some ()) :=
  malformed_child_aborts samplePOBad initFlags 0 0 [1] initFlags
    [Event.parsedChild 0 nameNewRound] () (by decide)

/-- C4: under the first-occurrence policy with the three registered type
names, the visitor fires at most once per distinct type name, every visit
is of a registered name, and each visit is at the earliest child of that
name in sequence order. -/
theorem first_occurrence_policy {B : Type} (po : ParseOracles B) (records : List B) :
    (∀ T, countVisits T (processGameRecords po records).1 ≤ 1) ∧
    (∀ T p i, Event.visited T p i ∈ (processGameRecords po records).1 →
      (T = nameNewRound ∨ T = nameDiscardTile ∨ T = nameDealTile) ∧
      Event.parsedChild i T ∈ (processGameRecords po records).1 ∧
      ∀ j, Event.parsedChild j T ∈ (processGameRecords po records).1 → i ≤ j) := by
  obtain ⟨h1, h2, h3, h4, h5⟩ := processLoop_spec po records initFlags 0
  have htr : (processGameRecords po records).1 =
      (processLoop po initFlags 0 records).2.1 := rfl
  rw [htr]
  refine ⟨h4, fun T p i hv => ?_⟩
  refine ⟨flagOf_false_name T initFlags (h3 T p i hv), (h5 T p i hv).1, (h5 T p i hv).2⟩

theorem first_occurrence_policy_witness :
    countVisits nameNewRound (processGameRecords samplePO [0, 0]).1 ≤ 1 ∧
    Event.parsedChild 0 nameNewRound ∈ (processGameRecords samplePO [0, 0]).1 :=
  ⟨(first_occurrence_policy samplePO [0, 0]).1 nameNewRound,
   ((first_occurrence_policy samplePO [0, 0]).2 nameNewRound 10 0 (by decide)).2.1⟩

/-- C5: an abort-free decode processes every child of the container, in
positional order (the parse events cover exactly the indices
`0, ..., N-1`, in order); a child whose type name is not one of the three
registered names is skipped without error and without stopping the
iteration. -/
theorem decoder_processes_all_children {B : Type} (po : ParseOracles B) :
    (∀ records : List B, (processGameRecords po records).2 = none →
      childIndices (processGameRecords po records).1 = List.range records.length) ∧
    (∀ (f : Flags) (i : Nat) (b : B) (w : Wrapper B),
      po.parseWrapper b = Except.ok w →
      w.name ≠ nameNewRound → w.name ≠ nameDiscardTile → w.name ≠ nameDealTile →
      processChild po f i b = (f, [Event.parsedChild i w.name], none)) := by
  constructor
  · intro records hr
    obtain ⟨h1, _, _, _, _⟩ := processLoop_spec po records initFlags 0
    have htr : (processGameRecords po records).1 =
        (processLoop po initFlags 0 records).2.1 := rfl
    have hab : (processGameRecords po records).2 =
        (processLoop po initFlags 0 records).2.2 := rfl
    rw [htr]
    rw [hab] at hr
    rw [List.range_eq_range']
    exact h1 hr
  · intro f i b w hw h1 h2 h3
    have hfl : flagOf w.name f = true := flagOf_unhandled w.name f h1 h2 h3
    rcases processChildParsed_spec po f i w with ⟨_, hcp⟩ | ⟨hfl2, _, _⟩ | ⟨hfl2, _⟩
    · simp [processChild, hw, hcp]
    · rw [hfl] at hfl2; cases hfl2
    · rw [hfl] at hfl2; cases hfl2

theorem decoder_processes_all_children_witness :
    childIndices (processGameRecords samplePO [9, 0]).1 = List.range 2 ∧
    processChild samplePO initFlags 0 9 =
      (initFlags, [Event.parsedChild 0 ".lq.UnknownRecord"], none) :=
  ⟨(decoder_processes_all_children samplePO).1 [9, 0] (by decide),
   (decoder_processes_all_children samplePO).2 initFlags 0 9
     { name := ".lq.UnknownRecord", data := 13 } rfl
     (by decide) (by decide) (by decide)⟩

/-- C1: when the phase-1 response carries an empty (or absent, which the
wire format renders as empty) access token, `login` fails, logging the
raw server response for diagnostics, and issues no further RPC call: no
phase-2 token exchange and no housekeeping call. -/
theorem phase1_empty_token_rejected (lobby : LobbyOracle)
    (username password version_to_force uuid_key1 uuid_key2 : String)
    (h : (lobby.login (mkReqLogin username (hashCredential password)
        version_to_force uuid_key1)).access_token = "") :
    login lobby username password version_to_force uuid_key1 uuid_key2 =
      (false,
       [RpcCall.loginCall (mkReqLogin username (hashCredential password)
          version_to_force uuid_key1)],
       [LogEntry.info "Login with username and password",
        LogEntry.errorMsg "Login Error:",
        LogEntry.errorLoginRes (lobby.login (mkReqLogin username
          (hashCredential password) version_to_force uuid_key1))]) := by
  simp [login, h]

theorem phase1_empty_token_rejected_witness :
    login lobbyReject "user" "pw" "0.11.0" "key1" "key2" =
      (false,
       [RpcCall.loginCall (mkReqLogin "user" (hashCredential "pw") "0.11.0" "key1")],
       [LogEntry.info "Login with username and password",
        LogEntry.errorMsg "Login Error:",
        LogEntry.errorLoginRes { access_token := "", error_code := some 151 }]) :=
  phase1_empty_token_rejected lobbyReject "user" "pw" "0.11.0" "key1" "key2" rfl

/-- C2: when phase 1 yields a non-empty token, `login` reports success and
logs both housekeeping responses whatever they contain (in particular when
they carry an error code); the outcome is the same for every behaviour of
the two housekeeping calls, so a housekeeping failure never escalates. -/
theorem housekeeping_failure_nonfatal (lobby : LobbyOracle)
    (username password version_to_force uuid_key1 uuid_key2 : String)
    (h : (lobby.login (mkReqLogin username (hashCredential password)
        version_to_force uuid_key1)).access_token ≠ "") :
    (login lobby username password version_to_force uuid_key1 uuid_key2).1 = true ∧
    LogEntry.infoPayMonthTicket (lobby.pay_month_ticket {}) ∈
      (login lobby username password version_to_force uuid_key1 uuid_key2).2.2 ∧
    LogEntry.infoFetchMonthTicketInfo (lobby.fetch_month_ticket_info {}) ∈
      (login lobby username password version_to_force uuid_key1 uuid_key2).2.2 ∧
    ∀ pay fetch : ReqCommon → ResCommon,
      (login { lobby with pay_month_ticket := pay, fetch_month_ticket_info := fetch }
        username password version_to_force uuid_key1 uuid_key2).1 = true := by
  refine ⟨?_, ?_, ?_, ?_⟩
  · simp [login, h]
  · simp [login, h]
  · simp [login, h]
  · intro pay fetch
    simp [login, h]

theorem housekeeping_failure_nonfatal_witness :
    (login lobbyAccept "user" "pw" "0.11.0" "key1" "key2").1 = true ∧
    LogEntry.infoPayMonthTicket { error_code := some 1151 } ∈
      (login lobbyAccept "user" "pw" "0.11.0" "key1" "key2").2.2 :=
  ⟨(housekeeping_failure_nonfatal lobbyAccept "user" "pw" "0.11.0" "key1" "key2"
      (by decide)).1,
   (housekeeping_failure_nonfatal lobbyAccept "user" "pw" "0.11.0" "key1" "key2"
      (by decide)).2.1⟩

/-- C10: with `USERNAME` or `PASSWORD` unset, `main` substitutes the
non-empty defaults and proceeds to connect and log in with them; the
empty-credential guard returns early, before opening any connection, only
when a variable is set explicitly to the empty string. -/
theorem main_env_defaults (env : String → Option String) :
    (env "USERNAME" = none → env "PASSWORD" = none →
      mainActions env = [MainAction.connect,
        MainAction.loginWith "default_username" "default_password",
        MainAction.closeChannel]) ∧
    ((env "USERNAME" = some "" ∨ env "PASSWORD" = some "") →
      mainActions env = [MainAction.logInfo "Username or password cant be empty"]) ∧
    (env "USERNAME" ≠ some "" → env "PASSWORD" ≠ some "" →
      mainActions env = [MainAction.connect,
        MainAction.loginWith (getenv env "USERNAME" "default_username")
          (getenv env "PASSWORD" "default_password"),
        MainAction.closeChannel]) := by
  refine ⟨?_, ?_, ?_⟩
  · intro hu hp
    simp [mainActions, getenv, hu, hp]
  · rintro (hu | hp)
    · simp [mainActions, getenv, hu]
    · simp [mainActions, getenv, hp]
  · intro hu hp
    have hu' : getenv env "USERNAME" "default_username" ≠ "" := by
      cases hU : env "USERNAME" with
      | none => simp [getenv, hU]
      | some s =>
        simp only [getenv, hU, Option.getD_some]
        intro hs
        exact hu (by rw [hU, hs])
    have hp' : getenv env "PASSWORD" "default_password" ≠ "" := by
      cases hP : env "PASSWORD" with
      | none => simp [getenv, hP]
      | some s =>
        simp only [getenv, hP, Option.getD_some]
        intro hs
        exact hp (by rw [hP, hs])
    simp [mainActions, hu', hp']

theorem main_env_defaults_witness :
    mainActions envUnset = [MainAction.connect,
      MainAction.loginWith "default_username" "default_password",
      MainAction.closeChannel] ∧
    mainActions envEmptyUsername =
      [MainAction.logInfo "Username or password cant be empty"] :=
  ⟨(main_env_defaults envUnset).1 rfl rfl,
   (main_env_defaults envEmptyUsername).2.1 (Or.inl rfl)⟩
